import Mathlib

/-!
Verification of the `image-pull-secrets` command of aurora-controller
(`cmd/imagepullsecrets.go` and `cmd/root.go`).

The development shallowly embeds the two sync-handler closures, the two
informer `UpdateFunc` event handlers, `generateSecrets`, and the startup
cache-sync barrier.  Remote API outcomes (lister `Get`, `Create`, `Update`)
are passed in as explicit environment values, and each handler run returns
the list of mutating API calls it issued together with its success /
failure / panic result.

Go slices are modelled with an explicit backing array and length, because
the service-account handler calls `append` on the slice owned by the cached
object: when that slice has spare capacity, Go's `append` writes the new
element into the shared backing array.  Every handler run therefore also
reports the state of the input object's backing storage after the call.
-/

namespace Aurora

/-- Model of a Go slice: a backing array together with the slice length.
The capacity is the length of the backing array (a slice whose capacity
exceeds its length has spare room at the end of `backing`). -/
structure GoSlice (α : Type) where
  backing : List α
  len : Nat
deriving DecidableEq

/-- Elements visible through the slice: the first `len` entries of the
backing array. -/
def GoSlice.view {α : Type} (s : GoSlice α) : List α :=
  s.backing.take s.len

/-- Well-formedness of a slice: the length does not exceed the capacity. -/
def GoSlice.WF {α : Type} (s : GoSlice α) : Prop :=
  s.len ≤ s.backing.length

instance {α : Type} (s : GoSlice α) : Decidable s.WF := by
  unfold GoSlice.WF; infer_instance

/-- Go's `append(s, x)`: if the slice has spare capacity the element is
written in place into the backing array (which the original slice keeps
sharing); otherwise a fresh backing array is allocated.  Returns the new
slice together with the backing array of the ORIGINAL slice after the
call. -/
def GoSlice.goAppend {α : Type} (s : GoSlice α) (x : α) : GoSlice α × List α :=
  if s.len < s.backing.length then
    let b := s.backing.set s.len x
    (⟨b, s.len + 1⟩, b)
  else
    (⟨s.backing.take s.len ++ [x], s.len + 1⟩, s.backing)

/-- Model of the deep copy produced by `DeepCopy`: a fresh backing array
holding exactly the visible elements (length = capacity). -/
def GoSlice.deepCopy {α : Type} (s : GoSlice α) : GoSlice α :=
  ⟨s.view, s.view.length⟩

theorem take_succ_set {α : Type} (l : List α) (n : Nat) (x : α) (h : n < l.length) :
    (l.set n x).take (n + 1) = l.take n ++ [x] := by
  induction l generalizing n with
  | nil => simp at h
  | cons a t ih =>
    cases n with
    | zero => simp
    | succ m =>
      have h' : m < t.length := by simpa using h
      simp [List.set, List.take, ih m h']

theorem take_set_same {α : Type} (l : List α) (n : Nat) (x : α) :
    (l.set n x).take n = l.take n := by
  induction l generalizing n with
  | nil => simp
  | cons a t ih =>
    cases n with
    | zero => simp
    | succ m => simp [List.set, List.take, ih]

/-- Appending to a well-formed slice extends the visible elements by the
appended element. -/
theorem GoSlice.view_goAppend {α : Type} (s : GoSlice α) (x : α) (h : s.WF) :
    ((s.goAppend x).1).view = s.view ++ [x] := by
  unfold GoSlice.goAppend GoSlice.view
  by_cases hlt : s.len < s.backing.length
  · simp only [hlt, if_true]
    exact take_succ_set _ _ _ hlt
  · simp only [hlt, if_false]
    have heq : s.len = s.backing.length := Nat.le_antisymm h (Nat.le_of_not_lt hlt)
    have h1 : s.backing.take s.len = s.backing := List.take_of_length_le (by omega)
    have h2 : (s.backing.take s.len ++ [x]).length ≤ s.len + 1 := by
      simp [h1, heq]
    exact List.take_of_length_le h2

/-- After an append, the first `len` entries of the original slice's backing
array are unchanged: the visible elements of the cached slice are intact. -/
theorem GoSlice.goAppend_snd_take {α : Type} (s : GoSlice α) (x : α) :
    ((s.goAppend x).2).take s.len = s.view := by
  unfold GoSlice.goAppend GoSlice.view
  by_cases hlt : s.len < s.backing.length
  · simp only [hlt, if_true]
    exact take_set_same _ _ _
  · simp only [hlt, if_false]

/-- When the slice has no spare capacity, an append reallocates and the
original backing array is untouched. -/
theorem GoSlice.goAppend_snd_full {α : Type} (s : GoSlice α) (x : α)
    (h : s.len = s.backing.length) : (s.goAppend x).2 = s.backing := by
  unfold GoSlice.goAppend
  simp [h]

/-- With spare capacity, an append writes the element into the original
backing array at index `len`. -/
theorem GoSlice.goAppend_snd_spare {α : Type} (s : GoSlice α) (x : α)
    (h : s.len < s.backing.length) :
    (s.goAppend x).2 = s.backing.set s.len x := by
  unfold GoSlice.goAppend
  simp [h]

/-- Model of `corev1.LocalObjectReference`. -/
structure LocalObjectReference where
  name : String
deriving DecidableEq

/-- Model of the `corev1.ServiceAccount` fields the command touches:
metadata identity, resource version, and the image-pull-secret list. -/
structure ServiceAccount where
  namespace_ : String
  name : String
  resourceVersion : String
  imagePullSecrets : GoSlice LocalObjectReference
deriving DecidableEq

/-- Model of `ServiceAccount.DeepCopy()`: all fields copied, with a fresh
backing array for the image-pull-secret slice. -/
def ServiceAccount.deepCopy (sa : ServiceAccount) : ServiceAccount :=
  { sa with imagePullSecrets := sa.imagePullSecrets.deepCopy }

/-- Model of the `corev1.Namespace` fields the command touches. -/
structure Namespace where
  name : String
  resourceVersion : String
deriving DecidableEq

/-- Model of the `corev1.Secret` fields the command touches.  `secretType`
models the Go field `Type`; `data` models `Data : map[string][]byte` as an
association list from key to byte string. -/
structure Secret where
  apiVersion : String
  kind : String
  name : String
  namespace_ : String
  resourceVersion : String
  secretType : String
  data : List (String × String)
deriving DecidableEq

/-- Result of one sync handler run: success (`return nil`), failure
(`return err`), or a runtime panic. -/
inductive RunResult where
  | success
  | failure (msg : String)
  | panicked
deriving DecidableEq

/-- Mutating API calls the service-account handler can issue. -/
inductive SaCall where
  | update (sa : ServiceAccount)
deriving DecidableEq

/-- Observable effects of one service-account handler run: the mutating
calls issued, the returned result, and the state of the input object's
image-pull-secret backing array after the run (the handler appends to the
cached object's slice, so spare capacity of that slice can be written). -/
structure SaRun where
  calls : List SaCall
  result : RunResult
  inputBacking : List LocalObjectReference
deriving DecidableEq

/-- Embedding of the service-account sync handler closure
(`cmd/imagepullsecrets.go` lines 59–82).  `secretName` is the value of
`os.Getenv("AURORA_SECRET_NAME")`; `updateErr` is the outcome of the remote
`ServiceAccounts(...).Update` call when one is issued. -/
def saSyncHandler (secretName : String) (updateErr : Option String)
    (sa : ServiceAccount) : SaRun :=
  let found := sa.imagePullSecrets.view.any (fun r => r.name == secretName)
  if found then
    { calls := [], result := RunResult.success
      inputBacking := sa.imagePullSecrets.backing }
  else
    let copied := sa.deepCopy
    let app := sa.imagePullSecrets.goAppend { name := secretName }
    let updated := { copied with imagePullSecrets := app.1 }
    match updateErr with
    | some e =>
      { calls := [SaCall.update updated], result := RunResult.failure e
        inputBacking := app.2 }
    | none =>
      { calls := [SaCall.update updated], result := RunResult.success
        inputBacking := app.2 }

/-- State of the service account after a first handler run whose update
succeeded: the object sent in the update call (which the cache then absorbs
from the watch stream); if no update was issued, the original object. -/
def saAfterRun (secretName : String) (sa : ServiceAccount) : ServiceAccount :=
  match (saSyncHandler secretName none sa).calls with
  | [SaCall.update u] => u
  | _ => sa

/-- Embedding of the service-account informer `UpdateFunc`
(lines 118–127): returns `true` iff `HandleObject` is called, i.e. iff the
resource versions differ. -/
def saUpdateEnqueues (oldObj newObj : ServiceAccount) : Bool :=
  if newObj.resourceVersion == oldObj.resourceVersion then false else true

/-- Embedding of the secrets informer `UpdateFunc` (lines 131–140). -/
def secretUpdateEnqueues (oldObj newObj : Secret) : Bool :=
  if newObj.resourceVersion == oldObj.resourceVersion then false else true

/-- Key under which the registry credential is stored in the secret. -/
def dockerConfigJsonKey : String := ".dockerconfigjson"

/-- Embedding of `reflect.DeepEqual` on `map[string][]byte`: the two maps
hold exactly the same keys with byte-equal values. -/
def mapEqual (m1 m2 : List (String × String)) : Bool :=
  m1.all (fun kv => m2.lookup kv.1 == some kv.2) &&
  m2.all (fun kv => m1.lookup kv.1 == some kv.2)

/-- Embedding of `generateSecrets` (lines 178–199).  `secretName` and
`dockerConfig` are `os.Getenv("AURORA_SECRET_NAME")` and
`os.Getenv("AURORA_SECRET_DOCKERCONFIGJSON")`. -/
def generateSecrets (secretName dockerConfig : String) (ns1 : Namespace) :
    List Secret :=
  let secrets : List Secret := []
  let secret : Secret :=
    { apiVersion := "core/v1"
      kind := "Secret"
      name := secretName
      namespace_ := ns1.name
      resourceVersion := ""
      secretType := "kubernetes.io/dockerconfigjson"
      data := [(dockerConfigJsonKey, dockerConfig)] }
  secrets ++ [secret]

/-- Outcome of the `secretsLister.Secrets(ns).Get(name)` call: the cached
object, a not-found error, or any other error. -/
inductive GetOutcome where
  | found (s : Secret)
  | notFound
  | otherErr (msg : String)
deriving DecidableEq

/-- Remote/cache outcomes for one namespace handler run. -/
structure NsEnv where
  get : GetOutcome
  createErr : Option String
  updateErr : Option String
deriving DecidableEq

/-- Mutating API calls available on the secrets client.  The client also
offers `Delete`; the handler is expected never to use it. -/
inductive NsCall where
  | create (s : Secret)
  | update (s : Secret)
  | delete (namespace_ name : String)
deriving DecidableEq

/-- Whether a call is a delete. -/
def NsCall.isDelete : NsCall → Bool
  | NsCall.delete _ _ => true
  | _ => false

/-- Observable effects of one namespace handler run: the mutating calls in
order, the result, the secret present remotely after the run (when the run
could establish one), and the post-run state of the lister-owned cached
secret when `Get` returned one.  The code assigns
`currentSecret.Data = secret.Data` through the pointer returned by the
lister, so the cached object itself is written before the update call. -/
structure NsRun where
  calls : List NsCall
  result : RunResult
  finalSecret : Option Secret
  cacheAfter : Option Secret
deriving DecidableEq

/-- One iteration of the loop body of the namespace sync handler closure
(lines 91–110) for a single generated secret.  When the lister returns an
error that is not a not-found error, the code skips the create branch and
dereferences the nil `currentSecret` in `reflect.DeepEqual(secret.Data,
currentSecret.Data)`: a panic. -/
def nsStep (env : NsEnv) (secret : Secret) : NsRun :=
  match env.get with
  | GetOutcome.notFound =>
    match env.createErr with
    | some e =>
      { calls := [NsCall.create secret], result := RunResult.failure e
        finalSecret := none, cacheAfter := none }
    | none =>
      let current := secret
      if mapEqual secret.data current.data then
        { calls := [NsCall.create secret], result := RunResult.success
          finalSecret := some current, cacheAfter := none }
      else
        let current2 := { current with data := secret.data }
        match env.updateErr with
        | some e =>
          { calls := [NsCall.create secret, NsCall.update current2]
            result := RunResult.failure e
            finalSecret := some current, cacheAfter := none }
        | none =>
          { calls := [NsCall.create secret, NsCall.update current2]
            result := RunResult.success
            finalSecret := some current2, cacheAfter := none }
  | GetOutcome.found current =>
    if mapEqual secret.data current.data then
      { calls := [], result := RunResult.success
        finalSecret := some current, cacheAfter := some current }
    else
      let current2 := { current with data := secret.data }
      match env.updateErr with
      | some e =>
        { calls := [NsCall.update current2], result := RunResult.failure e
          finalSecret := some current, cacheAfter := some current2 }
      | none =>
        { calls := [NsCall.update current2], result := RunResult.success
          finalSecret := some current2, cacheAfter := some current2 }
  | GetOutcome.otherErr _ =>
    { calls := [], result := RunResult.panicked
      finalSecret := none, cacheAfter := none }

/-- The `for _, secret := range secrets` loop with early `return err`. -/
def nsLoop (env : NsEnv) : List Secret → NsRun
  | [] =>
    { calls := [], result := RunResult.success
      finalSecret := none, cacheAfter := none }
  | s :: rest =>
    let r := nsStep env s
    match r.result with
    | RunResult.success =>
      let r2 := nsLoop env rest
      { calls := r.calls ++ r2.calls
        result := r2.result
        finalSecret := r2.finalSecret.orElse (fun _ => r.finalSecret)
        cacheAfter := r2.cacheAfter.orElse (fun _ => r.cacheAfter) }
    | _ => r

/-- Embedding of the namespace sync handler closure (lines 87–113). -/
def nsSyncHandler (secretName dockerConfig : String) (env : NsEnv)
    (ns1 : Namespace) : NsRun :=
  nsLoop env (generateSecrets secretName dockerConfig ns1)

/-- Sync state of the three informers the factory starts. -/
structure InformerSyncState where
  namespacesSynced : Bool
  serviceAccountsSynced : Bool
  secretsSynced : Bool
deriving DecidableEq

/-- Embedding of the predicate waited on by `cache.WaitForCacheSync` at
line 149: only the service-account and secret informers' `HasSynced` are
passed. -/
def cacheSyncBarrier (s : InformerSyncState) : Bool :=
  s.serviceAccountsSynced && s.secretsSynced

/-- What the startup sequence does after the cache-sync wait. -/
inductive StartupOutcome where
  | fatal (msg : String)
  | workersStarted (workersPerController : Nat)
deriving DecidableEq

/-- Embedding of lines 149–170: a failed wait is fatal, otherwise both
controllers are started with 2 workers each. -/
def afterCacheSync (ok : Bool) : StartupOutcome :=
  if ok then StartupOutcome.workersStarted 2
  else StartupOutcome.fatal "failed to wait for caches to sync"

/-- Embedding of the fatal checks in the startup sequence (lines 27–45):
only kubeconfig construction and clientset construction are checked; the
environment-sourced configuration is never validated. -/
def startupFatalError (kubeconfigErr clientsetErr : Option String) :
    Option String :=
  match kubeconfigErr with
  | some e => some ("error building kubeconfig: " ++ e)
  | none =>
    match clientsetErr with
    | some e => some ("Error building kubernetes clientset: " ++ e)
    | none => none

/-- The single secret `generateSecrets` yields for a namespace. -/
def desiredSecret (secretName dockerConfig : String) (ns1 : Namespace) : Secret :=
  { apiVersion := "core/v1"
    kind := "Secret"
    name := secretName
    namespace_ := ns1.name
    resourceVersion := ""
    secretType := "kubernetes.io/dockerconfigjson"
    data := [(dockerConfigJsonKey, dockerConfig)] }

/-! Helper lemmas shared by the claim theorems. -/

theorem saSyncHandler_found (secretName : String) (e : Option String)
    (sa : ServiceAccount)
    (hf : sa.imagePullSecrets.view.any (fun r => r.name == secretName) = true) :
    saSyncHandler secretName e sa =
      { calls := [], result := RunResult.success
        inputBacking := sa.imagePullSecrets.backing } := by
  simp [saSyncHandler, hf]

theorem saSyncHandler_notFound (secretName : String) (e : Option String)
    (sa : ServiceAccount)
    (hf : sa.imagePullSecrets.view.any (fun r => r.name == secretName) = false) :
    saSyncHandler secretName e sa =
      { calls := [SaCall.update
          { sa.deepCopy with
            imagePullSecrets :=
              (sa.imagePullSecrets.goAppend { name := secretName }).1 }]
        result := match e with
          | some m => RunResult.failure m
          | none => RunResult.success
        inputBacking :=
          (sa.imagePullSecrets.goAppend { name := secretName }).2 } := by
  cases e <;> simp [saSyncHandler, hf]

theorem nsLoop_singleton (env : NsEnv) (s : Secret) :
    nsLoop env [s] = nsStep env s := by
  unfold nsLoop
  rcases h : nsStep env s with ⟨calls, result, fs, ca⟩
  cases result <;> simp [nsLoop, Option.orElse]

theorem nsSyncHandler_eq_step (secretName dockerConfig : String) (env : NsEnv)
    (ns1 : Namespace) :
    nsSyncHandler secretName dockerConfig env ns1 =
      nsStep env (desiredSecret secretName dockerConfig ns1) :=
  nsLoop_singleton env _

theorem mapEqual_singleton_self (k v : String) :
    mapEqual [(k, v)] [(k, v)] = true := by
  simp [mapEqual, List.lookup]

theorem mapEqual_singleton_lookup (k v : String) (m : List (String × String))
    (h : mapEqual [(k, v)] m = true) : m.lookup k = some v := by
  simp [mapEqual] at h
  exact h.1

/-! Concrete sample objects used in counterexamples and witnesses. -/

/-- Service account whose pull-secret list holds the same name twice. -/
def saDup : ServiceAccount :=
  { namespace_ := "team-a", name := "default", resourceVersion := "41"
    imagePullSecrets := { backing := [{ name := "a" }, { name := "a" }], len := 2 } }

/-- The object the handler sends in the update for `saDup` and name `b`. -/
def saDupUpdated : ServiceAccount :=
  { namespace_ := "team-a", name := "default", resourceVersion := "41"
    imagePullSecrets :=
      { backing := [{ name := "a" }, { name := "a" }, { name := "b" }], len := 3 } }

/-- Ordinary service account with one pull-secret reference. -/
def saSample : ServiceAccount :=
  { namespace_ := "team-b", name := "builder", resourceVersion := "9"
    imagePullSecrets := { backing := [{ name := "regcred" }], len := 1 } }

/-! Claim theorems. -/

/-- C1 (amended): for every service account whose image-pull-secret list does
not contain the configured credential name, one successful run of the
ServiceAccount sync handler issues exactly one remote update whose
image-pull-secret list consists of the original entries in their original
order followed by the configured name as the last entry — hence exactly N+1
entries, pairwise distinct whenever the original N entries are pairwise
distinct. -/
theorem C1_sa_append_shape (secretName : String) (sa : ServiceAccount)
    (hwf : sa.imagePullSecrets.WF)
    (habs : ∀ r ∈ sa.imagePullSecrets.view, r.name ≠ secretName) :
    ∃ u, (saSyncHandler secretName none sa).calls = [SaCall.update u] ∧
      (saSyncHandler secretName none sa).result = RunResult.success ∧
      u.imagePullSecrets.view =
        sa.imagePullSecrets.view ++ [{ name := secretName }] ∧
      u.imagePullSecrets.view.length = sa.imagePullSecrets.view.length + 1 ∧
      ((sa.imagePullSecrets.view.map LocalObjectReference.name).Nodup →
        (u.imagePullSecrets.view.map LocalObjectReference.name).Nodup) := by
  have hf : sa.imagePullSecrets.view.any (fun r => r.name == secretName) = false := by
    rw [List.any_eq_false]
    intro r hr
    simpa using habs r hr
  have hrun := saSyncHandler_notFound secretName none sa hf
  refine ⟨{ sa.deepCopy with
      imagePullSecrets := (sa.imagePullSecrets.goAppend { name := secretName }).1 },
    ?_, ?_, ?_, ?_, ?_⟩
  · rw [hrun]
  · rw [hrun]
  · exact GoSlice.view_goAppend sa.imagePullSecrets { name := secretName } hwf
  · rw [GoSlice.view_goAppend sa.imagePullSecrets { name := secretName } hwf]
    simp
  · intro hnd
    rw [GoSlice.view_goAppend sa.imagePullSecrets { name := secretName } hwf]
    simp only [List.map_append, List.map_cons, List.map_nil]
    rw [List.nodup_append]
    refine ⟨hnd, List.nodup_singleton _, ?_⟩
    intro a ha hb
    simp only [List.mem_singleton] at hb
    subst hb
    obtain ⟨r, hr, hname⟩ := List.mem_map.mp ha
    exact habs r hr hname

/-- C1 witness: the amended claim evaluated on a concrete service account
holding one distinct reference. -/
theorem C1_sa_append_shape_witness :
    saSample.imagePullSecrets.WF ∧
    (∃ u, (saSyncHandler "aurora" none saSample).calls = [SaCall.update u] ∧
      (saSyncHandler "aurora" none saSample).result = RunResult.success ∧
      u.imagePullSecrets.view =
        saSample.imagePullSecrets.view ++ [{ name := "aurora" }] ∧
      u.imagePullSecrets.view.length =
        saSample.imagePullSecrets.view.length + 1 ∧
      ((saSample.imagePullSecrets.view.map LocalObjectReference.name).Nodup →
        (u.imagePullSecrets.view.map LocalObjectReference.name).Nodup)) :=
  ⟨by decide, C1_sa_append_shape "aurora" saSample (by decide) (by decide)⟩

/-- C1 counterexample: a service account whose list holds the name `a` twice
(no entry equals the configured name `b`) gets exactly one update, but the
updated list `[a, a, b]` is not pairwise distinct, refuting the claim's
"each distinct" clause as stated. -/
theorem C1_counterexample :
    saDup.imagePullSecrets.view.all (fun r => r.name != "b") = true ∧
    (saSyncHandler "b" none saDup).calls = [SaCall.update saDupUpdated] ∧
    (saSyncHandler "b" none saDup).result = RunResult.success ∧
    ¬ (saDupUpdated.imagePullSecrets.view.map LocalObjectReference.name).Nodup := by
  refine ⟨by decide, by decide, by decide, by decide⟩

/-- C2: the ServiceAccount sync handler is idempotent: a first run issues at
most one mutating update, a second run on the state resulting from a
successful first run issues none, and if the configured name is already
present the handler succeeds with zero calls. -/
theorem C2_sa_idempotent (secretName : String) (sa : ServiceAccount)
    (hwf : sa.imagePullSecrets.WF) :
    (saSyncHandler secretName none sa).calls.length ≤ 1 ∧
    (saSyncHandler secretName none (saAfterRun secretName sa)).calls = [] ∧
    (sa.imagePullSecrets.view.any (fun r => r.name == secretName) = true →
      (saSyncHandler secretName none sa).calls = [] ∧
      (saSyncHandler secretName none sa).result = RunResult.success) := by
  by_cases hf : sa.imagePullSecrets.view.any (fun r => r.name == secretName) = true
  · have hrun := saSyncHandler_found secretName none sa hf
    have hafter : saAfterRun secretName sa = sa := by
      simp [saAfterRun, hrun]
    refine ⟨?_, ?_, fun _ => ⟨?_, ?_⟩⟩
    · rw [hrun]; simp
    · rw [hafter, hrun]
    · rw [hrun]
    · rw [hrun]
  · have hf' : sa.imagePullSecrets.view.any (fun r => r.name == secretName) = false := by
      simpa using hf
    have hrun := saSyncHandler_notFound secretName none sa hf'
    have hafter : saAfterRun secretName sa =
        { sa.deepCopy with
          imagePullSecrets := (sa.imagePullSecrets.goAppend { name := secretName }).1 } := by
      simp [saAfterRun, hrun]
    have hfound2 :
        ({ sa.deepCopy with
            imagePullSecrets := (sa.imagePullSecrets.goAppend { name := secretName }).1 } :
          ServiceAccount).imagePullSecrets.view.any (fun r => r.name == secretName) = true := by
      show ((sa.imagePullSecrets.goAppend { name := secretName }).1).view.any _ = true
      rw [GoSlice.view_goAppend sa.imagePullSecrets { name := secretName } hwf]
      simp
    refine ⟨?_, ?_, ?_⟩
    · rw [hrun]; simp
    · rw [hafter, saSyncHandler_found secretName none _ hfound2]
    · intro h; exact absurd h hf

/-- C2 witness: the idempotence theorem at a concrete service account. -/
theorem C2_sa_idempotent_witness :
    saSample.imagePullSecrets.WF ∧
    ((saSyncHandler "aurora" none saSample).calls.length ≤ 1 ∧
     (saSyncHandler "aurora" none (saAfterRun "aurora" saSample)).calls = [] ∧
     (saSample.imagePullSecrets.view.any (fun r => r.name == "aurora") = true →
       (saSyncHandler "aurora" none saSample).calls = [] ∧
       (saSyncHandler "aurora" none saSample).result = RunResult.success)) :=
  ⟨by decide, C2_sa_idempotent "aurora" saSample (by decide)⟩

/-- C5: an update notification whose old and new object carry the same
resource version is dropped by the registered `UpdateFunc` of both informers
without a call to `HandleObject`, so no queue entry is made. -/
theorem C5_resync_suppressed (oldSa newSa : ServiceAccount)
    (oldSec newSec : Secret)
    (h1 : oldSa.resourceVersion = newSa.resourceVersion)
    (h2 : oldSec.resourceVersion = newSec.resourceVersion) :
    saUpdateEnqueues oldSa newSa = false ∧
    secretUpdateEnqueues oldSec newSec = false := by
  constructor
  · simp [saUpdateEnqueues, h1]
  · simp [secretUpdateEnqueues, h2]

/-- C5 witness: resync suppression at concrete objects sharing a resource
version. -/
theorem C5_resync_suppressed_witness :
    saSample.resourceVersion = saSample.resourceVersion ∧
    (saUpdateEnqueues saSample saSample = false ∧
     secretUpdateEnqueues
       { apiVersion := "v1", kind := "Secret", name := "aurora"
         namespace_ := "team-a", resourceVersion := "12"
         secretType := "kubernetes.io/dockerconfigjson"
         data := [(dockerConfigJsonKey, "OLD")] }
       { apiVersion := "v1", kind := "Secret", name := "aurora"
         namespace_ := "team-a", resourceVersion := "12"
         secretType := "kubernetes.io/dockerconfigjson"
         data := [(dockerConfigJsonKey, "NEW")] } = false) :=
  ⟨rfl, C5_resync_suppressed saSample saSample _ _ rfl rfl⟩

/-- Cached secret whose payload drifted away from the configured one. -/
def cachedDrift : Secret :=
  { apiVersion := "v1", kind := "Secret", name := "aurora"
    namespace_ := "team-a", resourceVersion := "12"
    secretType := "kubernetes.io/dockerconfigjson"
    data := [(dockerConfigJsonKey, "OLD")] }

/-- C3: with the remote calls succeeding and the lister behaving as a cache
(returning either not-found or the secret it was asked for), one run of the
Namespace sync handler succeeds and leaves a secret with the configured name
in the namespace whose payload under `.dockerconfigjson` is byte-equal to
the configured payload; a second run against that secret issues zero
mutating calls. -/
theorem C3_ns_convergence (secretName dockerConfig : String) (get : GetOutcome)
    (ns1 : Namespace)
    (hget : ∀ m, get ≠ GetOutcome.otherErr m)
    (hlister : ∀ cur, get = GetOutcome.found cur →
      cur.name = secretName ∧ cur.namespace_ = ns1.name) :
    (nsSyncHandler secretName dockerConfig ⟨get, none, none⟩ ns1).result =
      RunResult.success ∧
    ∃ s, (nsSyncHandler secretName dockerConfig ⟨get, none, none⟩ ns1).finalSecret =
        some s ∧
      s.name = secretName ∧ s.namespace_ = ns1.name ∧
      s.data.lookup dockerConfigJsonKey = some dockerConfig ∧
      (nsSyncHandler secretName dockerConfig
        ⟨GetOutcome.found s, none, none⟩ ns1).calls = [] := by
  have hstep := nsSyncHandler_eq_step secretName dockerConfig ⟨get, none, none⟩ ns1
  cases get with
  | notFound =>
    have hme : mapEqual [(dockerConfigJsonKey, dockerConfig)]
        [(dockerConfigJsonKey, dockerConfig)] = true :=
      mapEqual_singleton_self _ _
    rw [hstep]
    refine ⟨by simp [nsStep, desiredSecret, hme],
      desiredSecret secretName dockerConfig ns1,
      by simp [nsStep, desiredSecret, hme], rfl, rfl,
      by simp [desiredSecret, List.lookup], ?_⟩
    rw [nsSyncHandler_eq_step]
    simp [nsStep, desiredSecret, hme]
  | found cur =>
    obtain ⟨hn, hns⟩ := hlister cur rfl
    by_cases hm : mapEqual [(dockerConfigJsonKey, dockerConfig)] cur.data = true
    · rw [hstep]
      refine ⟨by simp [nsStep, desiredSecret, hm], cur,
        by simp [nsStep, desiredSecret, hm], hn, hns,
        mapEqual_singleton_lookup _ _ _ hm, ?_⟩
      rw [nsSyncHandler_eq_step]
      simp [nsStep, desiredSecret, hm]
    · have hm' : mapEqual [(dockerConfigJsonKey, dockerConfig)] cur.data = false := by
        simpa using hm
      have hme : mapEqual [(dockerConfigJsonKey, dockerConfig)]
          [(dockerConfigJsonKey, dockerConfig)] = true :=
        mapEqual_singleton_self _ _
      rw [hstep]
      refine ⟨by simp [nsStep, desiredSecret, hm'],
        { cur with data := [(dockerConfigJsonKey, dockerConfig)] },
        by simp [nsStep, desiredSecret, hm'], hn, hns,
        by simp [List.lookup], ?_⟩
      rw [nsSyncHandler_eq_step]
      simp [nsStep, desiredSecret, hme]
  | otherErr m => exact absurd rfl (hget m)

/-- C3 witness: convergence at a concrete namespace whose secret does not
exist yet. -/
theorem C3_ns_convergence_witness :
    (nsSyncHandler "aurora" "cfg" ⟨GetOutcome.notFound, none, none⟩
      ⟨"team-a", "7"⟩).result = RunResult.success ∧
    ∃ s, (nsSyncHandler "aurora" "cfg" ⟨GetOutcome.notFound, none, none⟩
        ⟨"team-a", "7"⟩).finalSecret = some s ∧
      s.name = "aurora" ∧ s.namespace_ = "team-a" ∧
      s.data.lookup dockerConfigJsonKey = some "cfg" ∧
      (nsSyncHandler "aurora" "cfg" ⟨GetOutcome.found s, none, none⟩
        ⟨"team-a", "7"⟩).calls = [] :=
  C3_ns_convergence "aurora" "cfg" GetOutcome.notFound ⟨"team-a", "7"⟩
    (fun _ h => nomatch h) (fun _ h => nomatch h)

/-- C4: when the lister finds an existing secret whose payload differs from
the configured one, the handler issues exactly one update whose object is
the found secret with only its data replaced (all other fields unchanged);
when the payload matches, it issues no mutating call. -/
theorem C4_ns_update_frame (secretName dockerConfig : String) (cur : Secret)
    (ns1 : Namespace) :
    (mapEqual [(dockerConfigJsonKey, dockerConfig)] cur.data = false →
      (nsSyncHandler secretName dockerConfig ⟨GetOutcome.found cur, none, none⟩
        ns1).calls =
        [NsCall.update { cur with data := [(dockerConfigJsonKey, dockerConfig)] }] ∧
      (nsSyncHandler secretName dockerConfig ⟨GetOutcome.found cur, none, none⟩
        ns1).result = RunResult.success) ∧
    (mapEqual [(dockerConfigJsonKey, dockerConfig)] cur.data = true →
      (nsSyncHandler secretName dockerConfig ⟨GetOutcome.found cur, none, none⟩
        ns1).calls = []) := by
  have hstep := nsSyncHandler_eq_step secretName dockerConfig
    ⟨GetOutcome.found cur, none, none⟩ ns1
  constructor
  · intro hm
    rw [hstep]
    constructor <;> simp [nsStep, desiredSecret, hm]
  · intro hm
    rw [hstep]
    simp [nsStep, desiredSecret, hm]

/-- C4 witness: drift correction at a concrete cached secret. -/
theorem C4_ns_update_frame_witness :
    mapEqual [(dockerConfigJsonKey, "NEW")] cachedDrift.data = false ∧
    ((nsSyncHandler "aurora" "NEW" ⟨GetOutcome.found cachedDrift, none, none⟩
        ⟨"team-a", "7"⟩).calls =
      [NsCall.update { cachedDrift with data := [(dockerConfigJsonKey, "NEW")] }] ∧
     (nsSyncHandler "aurora" "NEW" ⟨GetOutcome.found cachedDrift, none, none⟩
        ⟨"team-a", "7"⟩).result = RunResult.success) :=
  ⟨by decide,
    (C4_ns_update_frame "aurora" "NEW" cachedDrift ⟨"team-a", "7"⟩).1 (by decide)⟩

/-- C6 (code bug): when the lister `Get` returns an error that is not a
not-found error, the namespace handler skips the create branch and
dereferences the nil `currentSecret` in `reflect.DeepEqual(secret.Data,
currentSecret.Data)` — a panic instead of a returned failure, contradicting
the propagation policy.  Evaluated here at a concrete failing input. -/
theorem C6_ns_panics_on_lister_error :
    (nsSyncHandler "aurora" "cfg"
      ⟨GetOutcome.otherErr "connection refused", none, none⟩
      ⟨"team-a", "7"⟩).result = RunResult.panicked ∧
    (nsSyncHandler "aurora" "cfg"
      ⟨GetOutcome.otherErr "connection refused", none, none⟩
      ⟨"team-a", "7"⟩).calls = [] := by
  refine ⟨by decide, by decide⟩

/-- C7 counterexample: the cache-sync wait at line 149 passes only the
service-account and secret informers' `HasSynced`; with the namespace
informer still unsynced the barrier is already satisfied and workers start,
refuting the claim that the startup waits for every informer (namespaces
included). -/
theorem C7_counterexample :
    cacheSyncBarrier
      { namespacesSynced := false, serviceAccountsSynced := true
        secretsSynced := true } = true ∧
    afterCacheSync (cacheSyncBarrier
      { namespacesSynced := false, serviceAccountsSynced := true
        secretsSynced := true }) = StartupOutcome.workersStarted 2 := by
  refine ⟨by decide, by decide⟩

/-- C7 (amended): before any worker starts, the startup sequence waits until
the service-account and secret informers report has-synced (the namespace
informer is not part of the barrier), and if that wait fails startup is
fatal rather than starting workers. -/
theorem C7_barrier_scope (s : InformerSyncState) :
    cacheSyncBarrier s = (s.serviceAccountsSynced && s.secretsSynced) ∧
    afterCacheSync true = StartupOutcome.workersStarted 2 ∧
    afterCacheSync false =
      StartupOutcome.fatal "failed to wait for caches to sync" :=
  ⟨rfl, rfl, rfl⟩

/-- C8 (code bug): with both environment values absent (`os.Getenv` yields
the empty string), startup performs no configuration check — only
kubeconfig and clientset construction are fatal — and the namespace handler
silently reconciles, creating a secret with empty name and empty payload
instead of surfacing a configuration error at startup. -/
theorem C8_no_env_validation :
    startupFatalError none none = none ∧
    (nsSyncHandler "" "" ⟨GetOutcome.notFound, none, none⟩
      ⟨"team-a", "7"⟩).calls =
      [NsCall.create
        { apiVersion := "core/v1", kind := "Secret", name := ""
          namespace_ := "team-a", resourceVersion := ""
          secretType := "kubernetes.io/dockerconfigjson"
          data := [(dockerConfigJsonKey, "")] }] ∧
    (nsSyncHandler "" "" ⟨GetOutcome.notFound, none, none⟩
      ⟨"team-a", "7"⟩).result = RunResult.success := by
  refine ⟨rfl, by decide, by decide⟩

/-- C9 counterexample: the namespace handler mutates the cached snapshot it
received: on payload drift it assigns `currentSecret.Data = secret.Data`
through the lister-owned pointer, so after the run the cached object no
longer equals the snapshot that was handed in — refuting the claim that the
sync handlers never mutate the cached objects they receive. -/
theorem C9_counterexample :
    (nsSyncHandler "aurora" "NEW" ⟨GetOutcome.found cachedDrift, none, none⟩
      ⟨"team-a", "7"⟩).cacheAfter ≠ some cachedDrift ∧
    (nsSyncHandler "aurora" "NEW" ⟨GetOutcome.found cachedDrift, none, none⟩
      ⟨"team-a", "7"⟩).cacheAfter =
      some { cachedDrift with data := [(dockerConfigJsonKey, "NEW")] } := by
  refine ⟨by decide, by decide⟩

/-- C9 (amended): the ServiceAccount handler never changes the visible state
of its input: the entries of the image-pull-secret list are preserved, the
backing array is fully unchanged whenever the list has no spare capacity,
and with spare capacity the append writes the configured name only into the
spare slot beyond the visible length, sending a fresh deep-copied object in
the update; the Namespace handler, by contrast, does mutate the cached
secret in place, overwriting its data field with the configured payload
before issuing its update. -/
theorem C9_cache_mutation_scope (secretName : String) (e : Option String)
    (sa : ServiceAccount) :
    ((saSyncHandler secretName e sa).inputBacking.take sa.imagePullSecrets.len =
      sa.imagePullSecrets.view) ∧
    (sa.imagePullSecrets.len = sa.imagePullSecrets.backing.length →
      (saSyncHandler secretName e sa).inputBacking =
        sa.imagePullSecrets.backing) ∧
    (sa.imagePullSecrets.len < sa.imagePullSecrets.backing.length →
      sa.imagePullSecrets.view.any (fun r => r.name == secretName) = false →
      (saSyncHandler secretName e sa).inputBacking =
        sa.imagePullSecrets.backing.set sa.imagePullSecrets.len
          { name := secretName }) ∧
    (∀ dockerConfig cur ns1,
      mapEqual [(dockerConfigJsonKey, dockerConfig)] cur.data = false →
      (nsSyncHandler secretName dockerConfig ⟨GetOutcome.found cur, none, none⟩
        ns1).cacheAfter =
        some { cur with data := [(dockerConfigJsonKey, dockerConfig)] }) := by
  refine ⟨?_, ?_, ?_, ?_⟩
  · by_cases hf : sa.imagePullSecrets.view.any (fun r => r.name == secretName) = true
    · rw [saSyncHandler_found secretName e sa hf]
      rfl
    · have hf' : sa.imagePullSecrets.view.any (fun r => r.name == secretName) = false := by
        simpa using hf
      rw [saSyncHandler_notFound secretName e sa hf']
      exact GoSlice.goAppend_snd_take sa.imagePullSecrets { name := secretName }
  · intro hfull
    by_cases hf : sa.imagePullSecrets.view.any (fun r => r.name == secretName) = true
    · rw [saSyncHandler_found secretName e sa hf]
    · have hf' : sa.imagePullSecrets.view.any (fun r => r.name == secretName) = false := by
        simpa using hf
      rw [saSyncHandler_notFound secretName e sa hf']
      exact GoSlice.goAppend_snd_full sa.imagePullSecrets { name := secretName } hfull
  · intro hlt hf
    rw [saSyncHandler_notFound secretName e sa hf]
    exact GoSlice.goAppend_snd_spare sa.imagePullSecrets { name := secretName } hlt
  · intro dockerConfig cur ns1 hm
    rw [nsSyncHandler_eq_step]
    simp [nsStep, desiredSecret, hm]

/-- C9 witness: the amended claim at a concrete service account whose slice
has no spare capacity: the cached backing array is untouched. -/
theorem C9_cache_mutation_scope_witness :
    saSample.imagePullSecrets.len = saSample.imagePullSecrets.backing.length ∧
    (saSyncHandler "aurora" none saSample).inputBacking =
      saSample.imagePullSecrets.backing :=
  ⟨by decide, (C9_cache_mutation_scope "aurora" none saSample).2.1 (by decide)⟩

/-- C10: the namespace handler never issues a delete call: on every input
and every remote/cache outcome, every mutating call of a run is a create or
an in-place update, never a delete. -/
theorem C10_ns_never_deletes (secretName dockerConfig : String) (env : NsEnv)
    (ns1 : Namespace) :
    ((nsSyncHandler secretName dockerConfig env ns1).calls.all
      (fun c => !c.isDelete)) = true := by
  rcases env with ⟨get, ce, ue⟩
  rw [nsSyncHandler_eq_step]
  cases get <;> cases ce <;> cases ue <;>
    simp [nsStep, NsCall.isDelete] <;>
    split <;>
    simp [NsCall.isDelete]

end Aurora
